import Mathlib

/-!
Verification of the `gisht` task-automation scripts.

The repository is a set of Python Invoke tasks that build, test and package
a Rust binary.  We embed the pure computational core of those tasks
(string formatting, flag lists, template rendering, README splicing,
manifest-key normalisation, chunked hashing, platform dispatch) as Lean
definitions and prove the specified properties about them.  External
processes (cargo, fpm, uname, git) are modelled by their observable
results, passed in as parameters.
-/

namespace Gisht

/-! ## Python string primitives -/

/-- Model of Python `str.rstrip()`: remove trailing whitespace
(space, tab, CR, LF). -/
def pyRstrip (s : String) : String :=
  String.mk (s.toList.reverse.dropWhile Char.isWhitespace).reverse

/-- Model of Python `str.strip()`: remove leading and trailing whitespace. -/
def pyStrip (s : String) : String :=
  String.mk
    (((s.toList.dropWhile Char.isWhitespace).reverse.dropWhile
        Char.isWhitespace).reverse)

/-- Model of Python `str.lower()` (ASCII letters). -/
def pyLower (s : String) : String :=
  String.mk (s.toList.map Char.toLower)

/-- First index of a character in a character list, if present.
Models the non-negative outcome of Python `str.find`. -/
def charFindCh (c : Char) : List Char → Option Nat
  | [] => none
  | d :: ds => if d = c then some 0 else (charFindCh c ds).map (· + 1)

/-- Prefix test on character lists. -/
def prefixOfCh : List Char → List Char → Bool
  | [], _ => true
  | _ :: _, [] => false
  | a :: as, b :: bs => a = b && prefixOfCh as bs

/-- Model of Python `s.startswith(pre)`. -/
def pyStartsWith (s pre : String) : Bool :=
  prefixOfCh pre.toList s.toList

/-- Model of the Python slice `v[:k]` for an arbitrary (possibly negative)
integer bound `k`. -/
def pySliceTo (v : String) (k : Int) : String :=
  if k < 0 then String.mk (v.toList.take (v.toList.length - k.natAbs))
  else String.mk (v.toList.take k.toNat)

/-! ## C1: Bundler naming (src/tasks/release/fpm.py) -/

/-- The package fields that `PackageInfo.FIELDS` reads from Cargo.toml. -/
structure PackageFields where
  name : String
  version : String
  description : String
  url : String
  license : String
  maintainer : String
deriving DecidableEq

/-- The `Bundler` object of src/tasks/release/fpm.py: its release target,
architecture string and package metadata. -/
structure Bundler where
  target : String
  arch : String
  package : PackageFields
deriving DecidableEq

/-- `Bundler.bundle_name`: the string
`'%s-%s-%s' % (name, version, arch)`. -/
def Bundler.bundle_name (b : Bundler) : String :=
  b.package.name ++ "-" ++ b.package.version ++ "-" ++ b.arch

/-- Lookup of a flag by name in an association list, modelling a Python
dict holding keyword flags. -/
def lookupFlag (k : String) : List (String × String) → Option String
  | [] => none
  | (k2, v) :: rest => if k2 = k then some v else lookupFlag k rest

/-- The `package` flag that `Bundler.build` passes to fpm:
`flags.setdefault('package', str(OUTPUT_DIR / ('%s.%s' % (self.bundle_name, self._target))))`. -/
def Bundler.build_package_path (outputDir : String) (b : Bundler)
    (flags : List (String × String)) : String :=
  match lookupFlag "package" flags with
  | some p => p
  | none => outputDir ++ "/" ++ b.bundle_name ++ "." ++ b.target

/-! ## C7: cargo flags and task invocations
(src/tasks/util.py, src/tasks/__init__.py) -/

/-- `get_cargo_flags` from src/tasks/util.py: start from an empty list,
append `--release` when `release`, then `--verbose` when `verbose`. -/
def get_cargo_flags (release verbose : Bool) : List String :=
  (if release then ["--release"] else []) ++
    (if verbose then ["--verbose"] else [])

/-- The argv of a `cargo` invocation built by `cargo()` in
src/tasks/util.py: `['cargo'] + [cmd] + args`. -/
def cargo_invocation (cmd : String) (args : List String) : List String :=
  "cargo" :: cmd :: args

/-- The cargo argv produced by the `build` task. -/
def build_task_argv (release verbose : Bool) : List String :=
  cargo_invocation "build" (get_cargo_flags release verbose)

/-- The cargo argv produced by the `clean` task. -/
def clean_task_argv (release verbose : Bool) : List String :=
  cargo_invocation "clean" (get_cargo_flags release verbose)

/-- The cargo argv produced by the `test` task, which inserts
`--no-fail-fast` before the common flags. -/
def test_task_argv (release verbose : Bool) : List String :=
  cargo_invocation "test" ("--no-fail-fast" :: get_cargo_flags release verbose)

/-! ## C8: the maintainer field of PackageInfo
(src/tasks/release/fpm.py, FIELDS) -/

/-- The transformation applied to `package.authors[0]`:
`lambda v: v[:v.find('<') - 1] if '<' in v else v`. -/
def maintainer_transform (v : String) : String :=
  match charFindCh '<' v.toList with
  | some i => pySliceTo v ((i : Int) - 1)
  | none => v

/-- The `maintainer` field of `PackageInfo`: the transformed first author,
or nothing when the authors list is empty (Python would raise IndexError). -/
def package_maintainer (authors : List String) : Option String :=
  match authors with
  | [] => none
  | a :: _ => some (maintainer_transform a)

/-! ## C6: Bundler architecture string (src/tasks/release/fpm.py) -/

/-- The observable result of running an external command through the
Invoke context (`ctx.run`): its truthiness (`ok`), return code and
captured standard output. -/
structure RunResult where
  ok : Bool
  returncode : Int
  stdout : String
deriving DecidableEq

/-- `Bundler.UNKNOWN_ARCH`. -/
def UNKNOWN_ARCH : String := "unknown"

/-- `Bundler._get_architecture`: `unknown` when `uname` is unavailable or
either `uname` invocation fails, otherwise
`'%s-%s' % (uname -m stripped, uname -s stripped and lowercased)`. -/
def get_architecture (unameAvailable : Bool)
    (unameS unameM : RunResult) : String :=
  if !unameAvailable then UNKNOWN_ARCH
  else if !(unameS.ok && unameM.ok) then UNKNOWN_ARCH
  else pyStrip unameM.stdout ++ "-" ++ pyLower (pyStrip unameS.stdout)

/-- The `_arch` field set in `Bundler.__init__`: the `ARCH` environment
variable when present, else `_get_architecture`. -/
def bundler_arch (archEnv : Option String) (unameAvailable : Bool)
    (unameS unameM : RunResult) : String :=
  match archEnv with
  | some a => a
  | none => get_architecture unameAvailable unameS unameM

/-! ## C9: read_cargo_toml key normalisation (src/tasks/util.py) -/

/-- Split a character list on a separator character, keeping empty
pieces; models Python `str.split(sep)` for a one-character separator. -/
def splitOnCh (sep : Char) : List Char → List (List Char)
  | [] => [[]]
  | c :: cs =>
    if c = sep then [] :: splitOnCh sep cs
    else
      match splitOnCh sep cs with
      | [] => [[c]]
      | w :: ws => (c :: w) :: ws

/-- Model of Python `s.split('.')`. -/
def pySplitDot (s : String) : List String :=
  (splitOnCh '.' s.toList).map String.mk

/-- The `key` argument of `read_cargo_toml`: either a string or a
list/tuple of strings. -/
inductive TomlKey where
  | str (s : String)
  | list (elems : List String)
deriving DecidableEq

/-- The key-normalisation prefix of `read_cargo_toml`: wrap a string key
into a piece list, split every piece on dots and concatenate, and raise
`ValueError("key must not be empty")` when the resulting path is empty. -/
def read_cargo_toml_path (key : TomlKey) : Except String (List String) :=
  let pieces : List String :=
    match key with
    | .str s => if pyStartsWith s "package." then [s] else ["package", s]
    | .list l => l
  let path := (pieces.map pySplitDot).flatten
  if path.isEmpty then Except.error "key must not be empty"
  else Except.ok path

/-! ## C10: the release `all` task (src/tasks/release/__init__.py) -/

/-- The bundling tasks that `all_` can invoke. -/
inductive RelTask where
  | deb
  | rpm
  | brew
  | tarGz
deriving DecidableEq

/-- Platform normalisation at the top of `all_`:
`platform = (platform or '').lower().strip() or sys.platform`, then the
aliases osx, mac and macosx are replaced by darwin. -/
def normalize_platform (platform : Option String)
    (sysPlatform : String) : String :=
  let p0 := pyStrip (pyLower (platform.getD ""))
  let p1 := if p0 = "" then sysPlatform else p0
  if p1 = "osx" || p1 = "mac" || p1 = "macosx" then "darwin" else p1

/-- The body of `all_` after normalisation: which bundling tasks run,
in order, for a normalised platform string `p`. -/
def release_all_from (p : String) : List RelTask :=
  let isP := fun q => p = "all" || pyStartsWith p q
  let lin := isP "linux"
  let dar := isP "darwin"
  (if lin then [RelTask.deb, RelTask.rpm] else []) ++
    (if dar then [RelTask.brew] else []) ++
    (if !(lin || dar) || p = "all" then [RelTask.tarGz] else [])

/-- The `all_` task: normalise the platform argument, then dispatch. -/
def release_all_tasks (platform : Option String)
    (sysPlatform : String) : List RelTask :=
  release_all_from (normalize_platform platform sysPlatform)

/-! ## C5: chunked hashing (src/tasks/release/homebrew.py) -/

/-- Split a list into consecutive chunks of `n` elements, the final chunk
possibly shorter; models the loop of `hex_digest` reading a file through
`f.read(buf_size)` until it returns nothing. -/
def chunksOf {α : Type} (n : Nat) (l : List α) : List (List α) :=
  if h : n = 0 ∨ l.isEmpty then []
  else l.take n :: chunksOf n (l.drop n)
termination_by l.length
decreasing_by
  simp only [not_or, List.isEmpty_iff] at h
  have hp : 0 < l.length := List.length_pos.mpr h.2
  simp only [List.length_drop]
  omega

/-- A hashlib hasher is modelled by the byte sequence it has absorbed;
`update` appends to it.  The hexdigest of a hasher is an abstract
function `H` of the absorbed bytes: per the hashlib contract,
consecutive updates are equivalent to one update of the concatenation. -/
def hasher_update (st : List UInt8) (buf : List UInt8) : List UInt8 :=
  st ++ buf

/-- `hex_digest` from src/tasks/release/homebrew.py: starting from a
fresh hasher, update with consecutive chunks of `buf_size` bytes of the
file content, then take the hex digest. -/
def hex_digest (H : List UInt8 → String) (content : List UInt8)
    (bufSize : Nat) : String :=
  H ((chunksOf bufSize content).foldl hasher_update [])

/-! ## C3: the readme build task (src/tasks/build.py) -/

/-- Does `pat` occur as a contiguous run inside the character list?
Models the Python `in` operator on strings. -/
def infixCh (pat : List Char) : List Char → Bool
  | [] => prefixOfCh pat []
  | c :: rest => prefixOfCh pat (c :: rest) || infixCh pat rest

/-- Model of Python `pat in s` for strings. -/
def pyContains (s pat : String) : Bool :=
  infixCh pat.toList s.toList

/-- Model of `os.linesep.join` on Linux, where `os.linesep` is a single
line feed. -/
def joinLines : List String → String
  | [] => ""
  | [x] => x
  | x :: xs => x ++ "\n" ++ joinLines xs

/-- The marker-search loop of the `readme` task: walk the lines with
their indices; while no begin marker is known, a line starting with `#`
and containing `# Usage` becomes the begin marker; once the begin marker
is known, the next line starting with `#` becomes the end marker. -/
def scanMarkers : List String → Nat → Option Nat → Option (Nat × Nat)
  | [], _, _ => none
  | line :: rest, i, none =>
    if pyStartsWith line "#" then
      if pyContains line "# Usage" then scanMarkers rest (i + 1) (some i)
      else scanMarkers rest (i + 1) none
    else scanMarkers rest (i + 1) none
  | line :: rest, i, some b =>
    if pyStartsWith line "#" then some (b, i)
    else scanMarkers rest (i + 1) (some b)

/-- The README rewriting of the `readme` task: right-strip every line,
find the Usage region markers (`none` models `Exit(2)` when they are
missing), indent the usage lines by four spaces, and reassemble
`lines[:begin+1]`, a blank line, the usage text, a blank line,
`lines[end:]` and a final empty string, joined with line feeds. -/
def readme_build (lines helpLines : List String) : Option String :=
  let lines2 := lines.map pyRstrip
  match scanMarkers lines2 0 none with
  | none => none
  | some (b, e) =>
    let helpText := joinLines (helpLines.map (fun line => "    " ++ line))
    some (joinLines [joinLines (lines2.take (b + 1)), "", helpText, "",
      joinLines (lines2.drop e), ""])

/-! ## C4: ensure_rustc_version (src/tasks/util.py) -/

/-- Whitespace splitting worker: accumulate the current word reversed,
emit it at whitespace boundaries and at the end. -/
def wordsGo (cur : List Char) : List Char → List (List Char)
  | [] => if cur.isEmpty then [] else [cur.reverse]
  | c :: cs =>
    if c.isWhitespace then
      if cur.isEmpty then wordsGo [] cs else cur.reverse :: wordsGo [] cs
    else wordsGo (c :: cur) cs

/-- Model of Python `s.split(None)`: split on whitespace runs, with no
empty words. -/
def pySplitWhitespace (s : String) : List String :=
  (wordsGo [] s.toList).map String.mk

/-- The numeric value of a digit string. -/
def digitsToNat (cs : List Char) : Nat :=
  cs.foldl (fun acc c => acc * 10 + (c.toNat - 48)) 0

/-- A semver numeric identifier: a non-empty digit string with no
leading zero. -/
def parseNumId (s : String) : Option Nat :=
  let cs := s.toList
  if cs.isEmpty then none
  else if cs.all Char.isDigit then
    if 1 < cs.length ∧ cs.head? = some '0' then none
    else some (digitsToNat cs)
  else none

/-- Three-way natural-number comparison. -/
def cmpNat (a b : Nat) : Ordering :=
  if a < b then .lt else if a = b then .eq else .gt

/-- Lexicographic comparison of character lists by code point. -/
def cmpCharList : List Char → List Char → Ordering
  | [], [] => .eq
  | [], _ :: _ => .lt
  | _ :: _, [] => .gt
  | a :: as, b :: bs =>
    if a.toNat < b.toNat then .lt
    else if b.toNat < a.toNat then .gt
    else cmpCharList as bs

/-- Comparison of one prerelease identifier, per the semver rules used
by the Python semver library: numeric identifiers compare numerically
and are lower than alphanumeric ones, which compare lexically. -/
def cmpPreId (a b : String) : Ordering :=
  match parseNumId a, parseNumId b with
  | some x, some y => cmpNat x y
  | some _, none => .lt
  | none, some _ => .gt
  | none, none => cmpCharList a.toList b.toList

/-- Comparison of dot-separated prerelease identifier lists; a longer
list wins when the shared prefix is equal. -/
def cmpPreList : List String → List String → Ordering
  | [], [] => .eq
  | [], _ :: _ => .lt
  | _ :: _, [] => .gt
  | a :: as, b :: bs =>
    match cmpPreId a b with
    | .eq => cmpPreList as bs
    | o => o

/-- A parsed semantic version (the build-metadata part is ignored for
precedence, as in semver). -/
structure SemVer where
  major : Nat
  minor : Nat
  patch : Nat
  prerelease : Option String
deriving DecidableEq

/-- Split a character list at the first occurrence of `c`, reporting
whether `c` was found. -/
def breakAtCh (c : Char) : List Char → List Char × Option (List Char)
  | [] => ([], none)
  | d :: ds =>
    if d = c then ([], some ds)
    else
      let (pre, rest) := breakAtCh c ds
      (d :: pre, rest)

/-- Parse a semantic version `X.Y.Z[-prerelease][+build]`, modelling the
Python semver library parser (the identifier-character validation of the
prerelease part is not modelled). -/
def parseSemver (s : String) : Option SemVer :=
  let noBuild := (breakAtCh '+' s.toList).1
  let (core, pre) := breakAtCh '-' noBuild
  match (splitOnCh '.' core).map (fun cs => parseNumId (String.mk cs)) with
  | [some x, some y, some z] => some ⟨x, y, z, pre.map String.mk⟩
  | _ => none

/-- Semver precedence test `v >= m`: compare major, minor and patch
numerically; on equal cores a prerelease is lower than none, and two
prereleases compare by their identifier lists. -/
def semverGeCore (v m : SemVer) : Bool :=
  match cmpNat v.major m.major with
  | .lt => false
  | .gt => true
  | .eq =>
    match cmpNat v.minor m.minor with
    | .lt => false
    | .gt => true
    | .eq =>
      match cmpNat v.patch m.patch with
      | .lt => false
      | .gt => true
      | .eq =>
        match v.prerelease, m.prerelease with
        | none, none => true
        | some _, none => false
        | none, some _ => true
        | some a, some b =>
          match cmpPreList (pySplitDot a) (pySplitDot b) with
          | .lt => false
          | _ => true

/-- Model of `semver.match(version, '>=' + minimum)`: `none` models the
ValueError raised on an unparsable version. -/
def semver_match_ge (version minimum : String) : Option Bool :=
  match parseSemver version, parseSemver minimum with
  | some v, some m => some (semverGeCore v m)
  | _, _ => none

/-- `MIN_RUSTC_VERSION` from src/tasks/util.py. -/
def MIN_RUSTC_VERSION : String := "1.18.0"

/-- The possible outcomes of `ensure_rustc_version`: an `Exit`
exception with a code, a normal `True` return, or an uncaught
`ValueError` escaping from `semver.match`. -/
inductive RustcOutcome where
  | exit (code : Int)
  | ok
  | valueError
deriving DecidableEq

/-- `ensure_rustc_version` from src/tasks/util.py: `Exit` with the
process return code when `rustc --version` fails; `Exit 2` when its
output has fewer than two whitespace-separated words; otherwise match
the second word against `>=1.18.0` with semver, giving `True`, `Exit 1`
or an uncaught ValueError. -/
def ensure_rustc_version (r : RunResult) : RustcOutcome :=
  if !r.ok then .exit r.returncode
  else
    match (pySplitWhitespace r.stdout).take 2 with
    | [_, version] =>
      match semver_match_ge version MIN_RUSTC_VERSION with
      | none => .valueError
      | some true => .ok
      | some false => .exit 1
    | _ => .exit 2

/-- The version acceptance test as the spec describes it, stated from
the claim text for comparison: plain lexicographic string comparison
`version >= minimum` by code points, as Python compares `str` values. -/
def spec_string_version_ge (v m : String) : Bool :=
  !(cmpCharList v.toList m.toList = Ordering.lt)

/-! ## C2: the brew task (src/tasks/release/homebrew.py) -/

/-- `BIN` from src/tasks/__init__.py: the name of the built binary. -/
def BIN : String := "gisht"

/-- Model of Python `str.capitalize()`: first character uppercased and
every remaining character lowercased. -/
def pyCapitalize (s : String) : String :=
  match s.toList with
  | [] => ""
  | c :: cs => String.mk (c.toUpper :: cs.map Char.toLower)

/-- The capitalisation as the claim words it, stated from the claim text
for comparison: only the first letter is capitalised and the remaining
characters are kept unchanged. -/
def spec_capitalize_first (s : String) : String :=
  match s.toList with
  | [] => ""
  | c :: cs => String.mk (c.toUpper :: cs)

/-- A piece of a Python `string.Template`: literal text or a
`$placeholder`. -/
inductive TmplPart where
  | lit (s : String)
  | var (v : String)
deriving DecidableEq

/-- Model of `string.Template(...).substitute(variables)`: concatenate
the pieces, replacing every placeholder by its value; `none` models the
KeyError raised on a missing variable. -/
def renderTemplate (lookup : String → Option String) :
    List TmplPart → Option String
  | [] => some ""
  | .lit s :: rest => (renderTemplate lookup rest).map (fun t => s ++ t)
  | .var v :: rest =>
    match lookup v, renderTemplate lookup rest with
    | some val, some t => some (val ++ t)
    | _, _ => none

/-- `URL_TEMPLATE` from src/tasks/release/homebrew.py, split at its
`$placeholders` (the `#\x7b...\x7d` parts are literal Ruby text). -/
def URL_TEMPLATE : List TmplPart :=
  [.var "repository", .lit "/releases/download/#\x7bversion\x7d/",
    .var "name", .lit "-#\x7bversion\x7d-x86_64-apple-darwin.tar.gz"]

/-- `FORMULA_TEMPLATE` from src/tasks/release/homebrew.py (after its
`.strip()`), split at its `$placeholders`. -/
def FORMULA_TEMPLATE : List TmplPart :=
  [.lit "class ", .var "name",
    .lit " < Formula\n  version \x27", .var "version",
    .lit "\x27\n  desc \"", .var "description",
    .lit "\"\n  homepage \"", .var "homepage",
    .lit "\"\n  url \"", .var "url",
    .lit "\"\n  sha256 \"", .var "sha",
    .lit "\"\n\n  def install\n    bin.install \"", .var "bin",
    .lit "\"\n    # TODO: generate man pages\n    # man1.install \"",
    .var "bin",
    .lit ".1\"\n  end\nend"]

/-- The fields of the `[package]` section of Cargo.toml that the brew
task reads and the two templates reference. -/
structure HomebrewPackage where
  name : String
  version : String
  description : String
  homepage : String
  repository : String
deriving DecidableEq

/-- The `variables` dictionary inside `brew` after its mutations: the
package fields, with `name` capitalised, `bin` set to the binary name,
and `sha` and `url` present once computed. -/
def BrewVars (p : HomebrewPackage) (sha url : Option String) :
    String → Option String :=
  fun k =>
    if k = "name" then some (pyCapitalize p.name)
    else if k = "version" then some p.version
    else if k = "description" then some p.description
    else if k = "homepage" then some p.homepage
    else if k = "repository" then some p.repository
    else if k = "bin" then some BIN
    else if k = "sha" then sha
    else if k = "url" then url
    else none

/-- The externally observable effects of the brew task, in order. -/
inductive BrewEvent where
  | createBundle (path : String)
  | sha256Of (path : String)
  | writeFile (path : String) (content : String)
deriving DecidableEq

/-- The `brew` task of src/tasks/release/homebrew.py: create the
`.tar.gz` bundle, compute its SHA-256 digest, render the URL template
and then the formula template with the collected variables, and write
the rendered formula to `<capitalised name>.rb` in the release
directory.  The bundle path and its digest are the results of the two
external steps, passed in as parameters. -/
def brew (releaseDir : String) (p : HomebrewPackage)
    (bundlePath digest : String) : Option (List BrewEvent) :=
  match renderTemplate (BrewVars p (some digest) none) URL_TEMPLATE with
  | none => none
  | some url =>
    match renderTemplate (BrewVars p (some digest) (some url))
      FORMULA_TEMPLATE with
    | none => none
    | some formula =>
      some [.createBundle bundlePath, .sha256Of bundlePath,
        .writeFile (releaseDir ++ "/" ++ pyCapitalize p.name ++ ".rb")
          formula]

/-! ## Theorems -/

/-- Splitting never produces an empty list of pieces. -/
lemma splitOnCh_ne_nil (sep : Char) (l : List Char) :
    splitOnCh sep l ≠ [] := by
  induction l with
  | nil => simp [splitOnCh]
  | cons c cs ih =>
    simp only [splitOnCh]
    split
    · simp
    · cases h : splitOnCh sep cs <;> simp

/-- Python `split` of a string on a dot never yields an empty list. -/
lemma pySplitDot_ne_nil (s : String) : pySplitDot s ≠ [] := by
  simp [pySplitDot, List.map_eq_nil_iff]
  exact splitOnCh_ne_nil '.' s.toList

/-- Claim C1: for every release target among deb, rpm and tar, the bundle
name is exactly `name-version-arch` from the package metadata and the
architecture string; without a `package` flag the output package path
defaults to the release output directory joined with
`bundle_name.target`; and two Bundlers with equal package metadata,
architecture and target produce identical bundle names and default
package paths. -/
theorem claim_c1_bundler_naming (outputDir : String) (b1 b2 : Bundler)
    (flags : List (String × String))
    (_ht : b1.target ∈ ["deb", "rpm", "tar"])
    (hp : b1.package = b2.package) (ha : b1.arch = b2.arch)
    (htg : b1.target = b2.target) :
    b1.bundle_name
        = b1.package.name ++ "-" ++ b1.package.version ++ "-" ++ b1.arch
    ∧ (lookupFlag "package" flags = none →
        Bundler.build_package_path outputDir b1 flags
          = outputDir ++ "/" ++ b1.bundle_name ++ "." ++ b1.target)
    ∧ b1.bundle_name = b2.bundle_name
    ∧ Bundler.build_package_path outputDir b1 flags
        = Bundler.build_package_path outputDir b2 flags := by
  refine ⟨rfl, ?_, ?_, ?_⟩
  · intro h
    simp [Bundler.build_package_path, h]
  · simp [Bundler.bundle_name, hp, ha]
  · cases h : lookupFlag "package" flags <;>
      simp [Bundler.build_package_path, h, Bundler.bundle_name, hp, ha, htg]

/-- Witness for C1 at a concrete Bundler. -/
theorem claim_c1_bundler_naming_witness :
    ("deb" ∈ ["deb", "rpm", "tar"])
    ∧ Bundler.build_package_path "out"
          ⟨"deb", "x86", ⟨"gisht", "1.0", "d", "u", "l", "m"⟩⟩ []
        = "out" ++ "/"
            ++ Bundler.bundle_name
                ⟨"deb", "x86", ⟨"gisht", "1.0", "d", "u", "l", "m"⟩⟩
            ++ "." ++ "deb" :=
  ⟨by decide,
    (claim_c1_bundler_naming "out"
        ⟨"deb", "x86", ⟨"gisht", "1.0", "d", "u", "l", "m"⟩⟩
        ⟨"deb", "x86", ⟨"gisht", "1.0", "d", "u", "l", "m"⟩⟩
        [] (by decide) rfl rfl rfl).2.1 rfl⟩

/-- Claim C7: `get_cargo_flags` contains `--release` iff `release`,
`--verbose` iff `verbose`, with `--release` before `--verbose`; and the
build, clean and test tasks pass exactly these flags to cargo, test
inserting `--no-fail-fast` before them. -/
theorem claim_c7_cargo_flags (r v : Bool) :
    ("--release" ∈ get_cargo_flags r v ↔ r = true)
    ∧ ("--verbose" ∈ get_cargo_flags r v ↔ v = true)
    ∧ (r = true → v = true →
        (get_cargo_flags r v).indexOf "--release"
          < (get_cargo_flags r v).indexOf "--verbose")
    ∧ build_task_argv r v = "cargo" :: "build" :: get_cargo_flags r v
    ∧ clean_task_argv r v = "cargo" :: "clean" :: get_cargo_flags r v
    ∧ test_task_argv r v
        = "cargo" :: "test" :: "--no-fail-fast" :: get_cargo_flags r v := by
  cases r <;> cases v <;> exact (by decide)

/-- Witness for C7 at release = verbose = true. -/
theorem claim_c7_cargo_flags_witness :
    (get_cargo_flags true true).indexOf "--release"
      < (get_cargo_flags true true).indexOf "--verbose" :=
  (claim_c7_cargo_flags true true).2.2.1 rfl rfl

/-- Claim C8: the maintainer field is the first author unchanged when it
contains no `<`; when the first `<` is at index `i ≥ 1` it is the prefix
of length `i - 1`; and when the author string starts with `<` it is the
whole string with its last character removed. -/
theorem claim_c8_maintainer (a : String) (rest : List String) :
    (charFindCh '<' a.toList = none →
        package_maintainer (a :: rest) = some a)
    ∧ (∀ i, charFindCh '<' a.toList = some i → 1 ≤ i →
        package_maintainer (a :: rest)
          = some (String.mk (a.toList.take (i - 1))))
    ∧ (charFindCh '<' a.toList = some 0 →
        package_maintainer (a :: rest)
          = some (String.mk (a.toList.take (a.toList.length - 1)))) := by
  refine ⟨?_, ?_, ?_⟩
  · intro h
    have h2 : charFindCh '<' a.data = none := h
    simp [package_maintainer, maintainer_transform, h2]
  · intro i h hi
    have h2 : charFindCh '<' a.data = some i := h
    have h3 : ((i : Int) - 1).toNat = i - 1 := by omega
    simp only [package_maintainer, maintainer_transform, h, h2, pySliceTo]
    rw [if_neg (by omega), h3]
  · intro h
    have h2 : charFindCh '<' a.data = some 0 := h
    have h3 : (((0 : Nat) : Int) - 1).natAbs = 1 := by omega
    simp only [package_maintainer, maintainer_transform, h, h2, pySliceTo]
    rw [if_pos (by omega), h3]

/-- Witness for C8 at a concrete author string. -/
theorem claim_c8_maintainer_witness :
    charFindCh '<' ("John Doe <jd@example.com>").toList = some 9
    ∧ package_maintainer ["John Doe <jd@example.com>"]
        = some (String.mk (("John Doe <jd@example.com>").toList.take 8)) :=
  ⟨by decide,
    (claim_c8_maintainer "John Doe <jd@example.com>" []).2.1 9
      (by decide) (by decide)⟩

/-- Claim C6: the Bundler architecture string is the ARCH environment
variable when set; otherwise `hardware-os` from the stripped output of
`uname -m` and the stripped, lowercased output of `uname -s`; and
`unknown` when `uname` is unavailable or either invocation fails. -/
theorem claim_c6_architecture (archEnv : Option String) (av : Bool)
    (s m : RunResult) :
    (∀ a, archEnv = some a → bundler_arch archEnv av s m = a)
    ∧ (archEnv = none → av = true → s.ok = true → m.ok = true →
        bundler_arch archEnv av s m
          = pyStrip m.stdout ++ "-" ++ pyLower (pyStrip s.stdout))
    ∧ (archEnv = none → (av = false ∨ s.ok = false ∨ m.ok = false) →
        bundler_arch archEnv av s m = "unknown") := by
  refine ⟨?_, ?_, ?_⟩
  · intro a h
    simp [bundler_arch, h]
  · intro h h1 h2 h3
    simp [bundler_arch, h, get_architecture, h1, h2, h3]
  · intro h hcase
    rcases hcase with h1 | h1 | h1 <;> cases av <;>
      simp_all [bundler_arch, get_architecture, UNKNOWN_ARCH]

/-- Witness for C6 at concrete uname outputs. -/
theorem claim_c6_architecture_witness :
    bundler_arch none true ⟨true, 0, " Linux\n"⟩ ⟨true, 0, " x86_64\n"⟩
      = pyStrip " x86_64\n" ++ "-" ++ pyLower (pyStrip " Linux\n") :=
  (claim_c6_architecture none true ⟨true, 0, " Linux\n"⟩
    ⟨true, 0, " x86_64\n"⟩).2.1 rfl rfl rfl rfl

/-- Claim C9: a string key not starting with `package.` is looked up as
the path `package :: key split on dots`; a string key starting with
`package.` is split on dots and followed from the root; a list key has
each element split on dots and the pieces concatenated; the ValueError
is raised exactly for the empty list key, and the empty string key is
looked up as `[package, empty]`. -/
theorem claim_c9_key_normalisation :
    (∀ s : String, pyStartsWith s "package." = false →
        read_cargo_toml_path (.str s)
          = .ok ("package" :: pySplitDot s))
    ∧ (∀ s : String, pyStartsWith s "package." = true →
        read_cargo_toml_path (.str s) = .ok (pySplitDot s))
    ∧ (∀ l : List String,
        read_cargo_toml_path (.list l)
          = if l.isEmpty then .error "key must not be empty"
            else .ok ((l.map pySplitDot).flatten))
    ∧ read_cargo_toml_path (.str "") = .ok ["package", ""]
    ∧ (∀ k : TomlKey,
        read_cargo_toml_path k = .error "key must not be empty"
          ↔ k = .list []) := by
  have hp : pySplitDot "package" = ["package"] := by decide
  refine ⟨?_, ?_, ?_, ?_, ?_⟩
  · intro s h
    simp [read_cargo_toml_path, h, hp]
  · intro s h
    simp [read_cargo_toml_path, h, pySplitDot_ne_nil s]
  · intro l
    cases l with
    | nil => simp [read_cargo_toml_path]
    | cons a rest =>
      simp [read_cargo_toml_path, pySplitDot_ne_nil a, List.isEmpty_iff]
  · rfl
  · intro k
    cases k with
    | str s =>
      cases h : pyStartsWith s "package." <;>
        simp [read_cargo_toml_path, h, hp, pySplitDot_ne_nil s]
    | list l =>
      cases l with
      | nil => simp [read_cargo_toml_path]
      | cons a rest =>
        simp [read_cargo_toml_path, List.isEmpty_iff, pySplitDot_ne_nil a]

/-- Witness for C9 at the key `version`. -/
theorem claim_c9_key_normalisation_witness :
    (pyStartsWith "version" "package." = false)
    ∧ read_cargo_toml_path (.str "version")
        = .ok ("package" :: pySplitDot "version") :=
  ⟨by decide, claim_c9_key_normalisation.1 "version" (by decide)⟩

/-- Case analysis of the dispatch in `all_` over a normalised platform. -/
lemma release_all_from_spec (q : String) :
    release_all_from q ≠ []
    ∧ (RelTask.deb ∈ release_all_from q
        ↔ (pyStartsWith q "linux" = true ∨ q = "all"))
    ∧ (RelTask.rpm ∈ release_all_from q
        ↔ (pyStartsWith q "linux" = true ∨ q = "all"))
    ∧ (RelTask.brew ∈ release_all_from q
        ↔ (pyStartsWith q "darwin" = true ∨ q = "all"))
    ∧ (RelTask.tarGz ∈ release_all_from q
        ↔ (¬(RelTask.deb ∈ release_all_from q
              ∨ RelTask.brew ∈ release_all_from q)
            ∨ q = "all")) := by
  by_cases ha : q = "all" <;>
    cases hl : pyStartsWith q "linux" <;>
      cases hd : pyStartsWith q "darwin" <;>
        simp [release_all_from, ha, hl, hd]

/-- Claim C10: for every platform argument (including none) the release
`all` task invokes at least one bundling task; deb and rpm run exactly
when the normalised platform starts with linux or is all; brew exactly
when it starts with darwin (after alias normalisation) or is all; and
tar_gz exactly when no previous branch ran or the platform is all. -/
theorem claim_c10_release_all (platform : Option String)
    (sysPlatform : String) :
    release_all_tasks platform sysPlatform ≠ []
    ∧ (RelTask.deb ∈ release_all_tasks platform sysPlatform
        ↔ (pyStartsWith (normalize_platform platform sysPlatform) "linux"
              = true
            ∨ normalize_platform platform sysPlatform = "all"))
    ∧ (RelTask.rpm ∈ release_all_tasks platform sysPlatform
        ↔ (pyStartsWith (normalize_platform platform sysPlatform) "linux"
              = true
            ∨ normalize_platform platform sysPlatform = "all"))
    ∧ (RelTask.brew ∈ release_all_tasks platform sysPlatform
        ↔ (pyStartsWith (normalize_platform platform sysPlatform) "darwin"
              = true
            ∨ normalize_platform platform sysPlatform = "all"))
    ∧ (RelTask.tarGz ∈ release_all_tasks platform sysPlatform
        ↔ (¬(RelTask.deb ∈ release_all_tasks platform sysPlatform
              ∨ RelTask.brew ∈ release_all_tasks platform sysPlatform)
            ∨ normalize_platform platform sysPlatform = "all")) :=
  release_all_from_spec (normalize_platform platform sysPlatform)

/-- Witness for C10: with platform argument linux, the deb task runs. -/
theorem claim_c10_release_all_witness :
    RelTask.deb ∈ release_all_tasks (some "linux") "linux" :=
  (claim_c10_release_all (some "linux") "linux").2.1.mpr (Or.inl (by decide))

/-- Folding hasher updates over chunks absorbs their concatenation. -/
lemma foldl_hasher_update (cs : List (List UInt8)) :
    ∀ init : List UInt8, cs.foldl hasher_update init = init ++ cs.flatten := by
  induction cs with
  | nil => intro init; simp
  | cons c rest ih =>
    intro init
    simp [List.foldl_cons, hasher_update, ih, List.append_assoc]

/-- For a positive chunk size, the chunks of a list concatenate back to
the list. -/
lemma chunksOf_flatten {α : Type} (n : Nat) (hn : 0 < n) :
    ∀ l : List α, (chunksOf n l).flatten = l := by
  have H : ∀ len : Nat, ∀ l : List α,
      l.length = len → (chunksOf n l).flatten = l := by
    intro len
    induction len using Nat.strong_induction_on with
    | _ len ih =>
      intro l hlen
      rw [chunksOf]
      split
      · rename_i h
        rcases h with h | h
        · omega
        · rw [List.isEmpty_iff] at h
          subst h
          simp
      · rename_i h
        simp only [not_or, List.isEmpty_iff] at h
        have hp : 0 < l.length := List.length_pos.mpr h.2
        rw [List.flatten_cons,
          ih (l.drop n).length (by rw [List.length_drop]; omega)
            (l.drop n) rfl]
        exact List.take_append_drop n l
  exact fun l => H l.length l rfl

/-- Claim C5: for every file content and positive buffer size, the
chunked `hex_digest` equals the digest of a single update over the whole
content, so the result is independent of the buffer size; for the empty
file it is the digest of the empty byte string. -/
theorem claim_c5_hex_digest (H : List UInt8 → String)
    (content : List UInt8) (bufSize : Nat) (h : 0 < bufSize) :
    hex_digest H content bufSize = H (hasher_update [] content)
    ∧ hex_digest H [] bufSize = H [] := by
  constructor
  · rw [hex_digest, foldl_hasher_update, chunksOf_flatten bufSize h]
    rfl
  · rw [hex_digest, foldl_hasher_update, chunksOf_flatten bufSize h]
    rfl

/-- Witness for C5 at a three-byte content and buffer size two. -/
theorem claim_c5_hex_digest_witness :
    0 < 2
    ∧ hex_digest (fun l => toString l.length) [1, 2, 3] 2
        = (fun l => toString l.length) (hasher_update [] [1, 2, 3]) :=
  ⟨by decide,
    (claim_c5_hex_digest (fun l => toString l.length) [1, 2, 3] 2
      (by decide)).1⟩

/-- Once the begin marker is fixed, the scan returns it unchanged
together with the index of the next line starting with `#`, and no line
strictly before that index starts with `#`. -/
lemma scanMarkers_some_spec :
    ∀ (lines : List String) (i b0 b e : Nat),
      scanMarkers lines i (some b0) = some (b, e) →
      b = b0 ∧ i ≤ e ∧ e < i + lines.length
      ∧ (∃ x, lines[e - i]? = some x ∧ pyStartsWith x "#" = true)
      ∧ (∀ j x, i ≤ j → j < e → lines[j - i]? = some x →
          pyStartsWith x "#" = false) := by
  intro lines
  induction lines with
  | nil =>
    intro i b0 b e h
    simp [scanMarkers] at h
  | cons line rest ih =>
    intro i b0 b e h
    by_cases hs : pyStartsWith line "#" = true
    · rw [scanMarkers, if_pos hs] at h
      have hbe : b0 = b ∧ i = e := by simpa using h
      obtain ⟨hb1, hb2⟩ := hbe
      refine ⟨hb1.symm, by omega, by simp only [List.length_cons]; omega,
        ⟨line, by rw [← hb2]; simp, hs⟩, ?_⟩
      intro j x hij hj _
      exfalso
      omega
    · rw [scanMarkers, if_neg hs] at h
      rw [Bool.not_eq_true] at hs
      obtain ⟨hb, hie, hlen, ⟨x0, hx0, hx0s⟩, hbetween⟩ := ih (i + 1) b0 b e h
      refine ⟨hb, by omega, by simp only [List.length_cons]; omega, ?_, ?_⟩
      · refine ⟨x0, ?_, hx0s⟩
        have he : e - i = (e - (i + 1)) + 1 := by omega
        rw [he]
        simpa using hx0
      · intro j x hij hj hx
        rcases Nat.eq_or_lt_of_le hij with hji | hji
        · have hj0 : j - i = 0 := by omega
          rw [hj0] at hx
          simp at hx
          rw [← hx]
          exact hs
        · have hj1 : j - i = (j - (i + 1)) + 1 := by omega
          rw [hj1] at hx
          exact hbetween j x (by omega) hj (by simpa using hx)

/-- The full marker search: the begin marker is a line starting with `#`
containing `# Usage`, the end marker is the next line starting with `#`
after it, and no line strictly between them starts with `#`. -/
lemma scanMarkers_none_spec :
    ∀ (lines : List String) (i b e : Nat),
      scanMarkers lines i none = some (b, e) →
      i ≤ b ∧ b < e ∧ e < i + lines.length
      ∧ (∃ x, lines[b - i]? = some x ∧ pyStartsWith x "#" = true
          ∧ pyContains x "# Usage" = true)
      ∧ (∃ x, lines[e - i]? = some x ∧ pyStartsWith x "#" = true)
      ∧ (∀ j x, b < j → j < e → lines[j - i]? = some x →
          pyStartsWith x "#" = false) := by
  intro lines
  induction lines with
  | nil =>
    intro i b e h
    simp [scanMarkers] at h
  | cons line rest ih =>
    intro i b e h
    by_cases hs : pyStartsWith line "#" = true
    · by_cases hc : pyContains line "# Usage" = true
      · rw [scanMarkers, if_pos hs, if_pos hc] at h
        obtain ⟨hb, hie, hlen, ⟨x0, hx0, hx0s⟩, hbetween⟩ :=
          scanMarkers_some_spec rest (i + 1) i b e h
        refine ⟨by omega, by omega, by simp only [List.length_cons]; omega,
          ⟨line, by rw [hb]; simp, hs, hc⟩, ?_, ?_⟩
        · refine ⟨x0, ?_, hx0s⟩
          have he : e - i = (e - (i + 1)) + 1 := by omega
          rw [he]
          simpa using hx0
        · intro j x hbj hj hx
          have hj1 : j - i = (j - (i + 1)) + 1 := by omega
          rw [hj1] at hx
          exact hbetween j x (by omega) hj (by simpa using hx)
      · rw [scanMarkers, if_pos hs, if_neg hc] at h
        obtain ⟨hib, hbe, hlen, ⟨x1, hx1, hx1p⟩, ⟨x0, hx0, hx0s⟩, hbetween⟩ :=
          ih (i + 1) b e h
        refine ⟨by omega, hbe, by simp only [List.length_cons]; omega,
          ?_, ?_, ?_⟩
        · refine ⟨x1, ?_, hx1p⟩
          have hb1 : b - i = (b - (i + 1)) + 1 := by omega
          rw [hb1]
          simpa using hx1
        · refine ⟨x0, ?_, hx0s⟩
          have he : e - i = (e - (i + 1)) + 1 := by omega
          rw [he]
          simpa using hx0
        · intro j x hbj hj hx
          have hj1 : j - i = (j - (i + 1)) + 1 := by omega
          rw [hj1] at hx
          exact hbetween j x (by omega) hj (by simpa using hx)
    · rw [scanMarkers, if_neg hs] at h
      obtain ⟨hib, hbe, hlen, ⟨x1, hx1, hx1p⟩, ⟨x0, hx0, hx0s⟩, hbetween⟩ :=
        ih (i + 1) b e h
      refine ⟨by omega, hbe, by simp only [List.length_cons]; omega,
        ?_, ?_, ?_⟩
      · refine ⟨x1, ?_, hx1p⟩
        have hb1 : b - i = (b - (i + 1)) + 1 := by omega
        rw [hb1]
        simpa using hx1
      · refine ⟨x0, ?_, hx0s⟩
        have he : e - i = (e - (i + 1)) + 1 := by omega
        rw [he]
        simpa using hx0
      · intro j x hbj hj hx
        have hj1 : j - i = (j - (i + 1)) + 1 := by omega
        rw [hj1] at hx
        exact hbetween j x (by omega) hj (by simpa using hx)

/-- Peeling one line off a join. -/
lemma joinLines_cons (x : String) (t : List String) (ht : t ≠ []) :
    joinLines (x :: t) = x ++ "\n" ++ joinLines t := by
  cases t with
  | nil => exact absurd rfl ht
  | cons y ys => rfl

/-- Joining a concatenation of two non-empty line lists. -/
lemma joinLines_append (A B : List String) (hA : A ≠ []) (hB : B ≠ []) :
    joinLines (A ++ B) = joinLines A ++ "\n" ++ joinLines B := by
  induction A with
  | nil => exact absurd rfl hA
  | cons a as ih =>
    cases as with
    | nil =>
      rw [List.singleton_append, joinLines_cons a B hB]
      rfl
    | cons a2 as2 =>
      rw [List.cons_append, joinLines_cons a _ (by simp),
        ih (by simp), joinLines_cons a (a2 :: as2) (by simp)]
      simp [String.append_assoc]

/-- The nested join produced by the readme task equals the flat join of
the concatenated line lists (with blank lines and the final empty
piece), for non-empty prefix and suffix. -/
lemma joinLines_assemble (A H P : List String) (hA : A ≠ [])
    (hH : H ≠ []) (hP : P ≠ []) :
    joinLines [joinLines A, "", joinLines H, "", joinLines P, ""]
      = joinLines (A ++ [""] ++ H ++ [""] ++ P ++ [""]) := by
  have hflat : A ++ [""] ++ H ++ [""] ++ P ++ [""]
      = A ++ ("" :: (H ++ ("" :: (P ++ [""])))) := by
    simp
  rw [hflat, joinLines_append A _ hA (by simp),
    joinLines_cons "" _ (by simp),
    joinLines_append H _ hH (by simp),
    joinLines_cons "" _ (by simp),
    joinLines_append P [""] hP (by simp)]
  simp [joinLines, String.append_assoc]

/-- Claim C3, amended: the readme task replaces exactly the region
strictly between the `# Usage` header line and the next header line by
the usage text indented four spaces and surrounded by single blank
lines, with a trailing newline; every line outside the region reappears
in its right-stripped form (trailing whitespace removed), not verbatim
as the original claim stated. -/
theorem claim_c3_readme_frame (lines helpLines : List String) (b e : Nat)
    (hHelp : helpLines ≠ [])
    (h : scanMarkers (lines.map pyRstrip) 0 none = some (b, e)) :
    (∃ x, (lines.map pyRstrip)[b]? = some x ∧ pyStartsWith x "#" = true
        ∧ pyContains x "# Usage" = true)
    ∧ (∃ x, (lines.map pyRstrip)[e]? = some x ∧ pyStartsWith x "#" = true)
    ∧ (∀ j x, b < j → j < e → (lines.map pyRstrip)[j]? = some x →
        pyStartsWith x "#" = false)
    ∧ readme_build lines helpLines
        = some (joinLines ((lines.take (b + 1)).map pyRstrip
            ++ [""] ++ helpLines.map (fun l => "    " ++ l) ++ [""]
            ++ (lines.drop e).map pyRstrip ++ [""])) := by
  obtain ⟨hib, hbe, hlen, hbeg, hend, hbet⟩ :=
    scanMarkers_none_spec (lines.map pyRstrip) 0 b e h
  simp only [Nat.sub_zero] at hbeg hend hbet
  simp only [Nat.zero_add, List.length_map] at hlen
  refine ⟨hbeg, hend, hbet, ?_⟩
  simp only [readme_build, h]
  rw [joinLines_assemble _ _ _
    (List.ne_nil_of_length_pos (by
      rw [List.length_take, List.length_map]
      omega))
    (by simpa using hHelp)
    (List.ne_nil_of_length_pos (by
      rw [List.length_drop, List.length_map]
      omega))]
  rw [List.map_take, List.map_drop]

/-- Witness for the amended C3 at a concrete README. -/
theorem claim_c3_readme_frame_witness :
    scanMarkers (["intro", "# Usage", "old", "# Next"].map pyRstrip) 0 none
      = some (1, 3)
    ∧ readme_build ["intro", "# Usage", "old", "# Next"] ["u"]
        = some (joinLines
            ((["intro", "# Usage", "old", "# Next"].take 2).map pyRstrip
              ++ [""] ++ ["u"].map (fun l => "    " ++ l) ++ [""]
              ++ (["intro", "# Usage", "old", "# Next"].drop 3).map pyRstrip
              ++ [""])) :=
  ⟨by decide,
    (claim_c3_readme_frame ["intro", "# Usage", "old", "# Next"] ["u"] 1 3
      (by decide) (by decide)).2.2.2⟩

/-- Counterexample to C3 as stated: a line with trailing whitespace
before the Usage header does not appear unchanged in the rewritten
README (it is right-stripped), so the rewritten content differs from the
content the claim predicts. -/
theorem claim_c3_counterexample :
    readme_build ["intro ", "# Usage", "old", "# Next"] ["usage line"]
      = some "intro\n# Usage\n\n    usage line\n\n# Next\n"
    ∧ "intro\n# Usage\n\n    usage line\n\n# Next\n"
        ≠ "intro \n# Usage\n\n    usage line\n\n# Next\n" := by
  constructor
  · decide
  · decide

/-- Counterexample to C4 as stated: with rustc reporting version
1.100.0 the task accepts (semver 1.100.0 is at least 1.18.0), yet the
version string compares lexicographically below the minimum string, so
acceptance is not a plain string comparison. -/
theorem claim_c4_counterexample :
    pySplitWhitespace "rustc 1.100.0 (abcdef 2024-01-01)"
      = ["rustc", "1.100.0", "(abcdef", "2024-01-01)"]
    ∧ ensure_rustc_version ⟨true, 0, "rustc 1.100.0 (abcdef 2024-01-01)"⟩
        = RustcOutcome.ok
    ∧ spec_string_version_ge "1.100.0" MIN_RUSTC_VERSION = false := by
  refine ⟨by decide, by decide, by decide⟩

/-- Claim C4, amended: `ensure_rustc_version` raises Exit with the
process return code when `rustc --version` fails, Exit 2 when the
output has fewer than two words, and Exit 1 when the reported version
parses as a semantic version below 1.18.0; it returns True when the
parsed version passes.  The comparison is semantic-version precedence
(numeric comparison of parsed components), not string comparison, and a
version that does not parse raises an uncaught ValueError. -/
theorem claim_c4_rustc_version (r : RunResult) :
    (r.ok = false → ensure_rustc_version r = .exit r.returncode)
    ∧ (r.ok = true → (pySplitWhitespace r.stdout).length < 2 →
        ensure_rustc_version r = .exit 2)
    ∧ (∀ w version rest, r.ok = true →
        pySplitWhitespace r.stdout = w :: version :: rest →
        ((ensure_rustc_version r = .ok
            ↔ semver_match_ge version MIN_RUSTC_VERSION = some true)
        ∧ (ensure_rustc_version r = .exit 1
            ↔ semver_match_ge version MIN_RUSTC_VERSION = some false)
        ∧ (ensure_rustc_version r = .valueError
            ↔ semver_match_ge version MIN_RUSTC_VERSION = none))) := by
  refine ⟨?_, ?_, ?_⟩
  · intro h
    simp [ensure_rustc_version, h]
  · intro h hlen
    cases hws : pySplitWhitespace r.stdout with
    | nil => simp [ensure_rustc_version, h, hws]
    | cons a tl =>
      cases tl with
      | nil => simp [ensure_rustc_version, h, hws]
      | cons b tl2 =>
        rw [hws] at hlen
        simp at hlen
        omega
  · intro w version rest h hws
    have htake : (pySplitWhitespace r.stdout).take 2 = [w, version] := by
      rw [hws]
      rfl
    cases hm : semver_match_ge version MIN_RUSTC_VERSION with
    | none => simp [ensure_rustc_version, h, htake, hm]
    | some bb => cases bb <;> simp [ensure_rustc_version, h, htake, hm]

/-- Witness for the amended C4 at rustc exactly at the minimum. -/
theorem claim_c4_rustc_version_witness :
    ensure_rustc_version ⟨true, 0, "rustc 1.18.0 (ce5ed083a)"⟩
      = RustcOutcome.ok :=
  ((claim_c4_rustc_version ⟨true, 0, "rustc 1.18.0 (ce5ed083a)"⟩).2.2
    "rustc" "1.18.0" ["(ce5ed083a)"] rfl (by decide)).1.mpr (by decide)

/-- Claim C2, amended: the brew task, in order, creates the gzip
release bundle, computes the SHA-256 digest of that bundle file,
substitutes the digest and the package fields into the URL template and
then into the formula template, and writes the rendered formula to
`<Name>.rb` in the release directory — where Name is the package name
under Python capitalize semantics (first character uppercased, the
remaining characters lowercased), not merely with its first letter
capitalised. -/
theorem claim_c2_brew (releaseDir : String) (p : HomebrewPackage)
    (bundlePath digest : String) :
    brew releaseDir p bundlePath digest
      = some [BrewEvent.createBundle bundlePath,
          BrewEvent.sha256Of bundlePath,
          BrewEvent.writeFile
            (releaseDir ++ "/" ++ pyCapitalize p.name ++ ".rb")
            ("class " ++ pyCapitalize p.name
              ++ " < Formula\n  version \x27" ++ p.version
              ++ "\x27\n  desc \"" ++ p.description
              ++ "\"\n  homepage \"" ++ p.homepage
              ++ "\"\n  url \""
              ++ (p.repository ++ "/releases/download/#\x7bversion\x7d/"
                  ++ pyCapitalize p.name
                  ++ "-#\x7bversion\x7d-x86_64-apple-darwin.tar.gz")
              ++ "\"\n  sha256 \"" ++ digest
              ++ "\"\n\n  def install\n    bin.install \"" ++ BIN
              ++ "\"\n    # TODO: generate man pages\n    # man1.install \""
              ++ BIN ++ ".1\"\n  end\nend")] := by
  have hmerge : ∀ x : String,
      ("-#\x7bversion\x7d-x86_64-apple-darwin.tar.gz" : String)
          ++ ("\"\n  sha256 \"" ++ x)
        = "-#\x7bversion\x7d-x86_64-apple-darwin.tar.gz\"\n  sha256 \""
          ++ x := by
    intro x
    rw [← String.append_assoc]
    rfl
  simp [brew, renderTemplate, URL_TEMPLATE, FORMULA_TEMPLATE, BrewVars,
    String.append_assoc, hmerge]

set_option maxRecDepth 16384 in
/-- Counterexample to C2 as stated: for the package name `aB` the
formula file is `Ab.rb` (capitalize lowercases the rest of the name),
not `AB.rb` as capitalising only the first letter would give. -/
theorem claim_c2_counterexample :
    brew "rel" ⟨"aB", "1.0", "d", "h", "r"⟩ "b.tar.gz" "s123"
      = some [BrewEvent.createBundle "b.tar.gz",
          BrewEvent.sha256Of "b.tar.gz",
          BrewEvent.writeFile "rel/Ab.rb"
            ("class Ab < Formula\n  version \x271.0\x27\n  desc \"d\"\n"
              ++ "  homepage \"h\"\n  url \"r/releases/download/"
              ++ "#\x7bversion\x7d/Ab-#\x7bversion\x7d-x86_64-apple-"
              ++ "darwin.tar.gz\"\n  sha256 \"s123\"\n\n  def install\n"
              ++ "    bin.install \"gisht\"\n    # TODO: generate man "
              ++ "pages\n    # man1.install \"gisht.1\"\n  end\nend")]
    ∧ "rel/Ab.rb" ≠ "rel" ++ "/" ++ spec_capitalize_first "aB" ++ ".rb" := by
  refine ⟨by decide, by decide⟩

end Gisht
